import Mathlib

/-!
Shallow embedding of the inventory simulation engine in `src/app.py`
(PrasannaMummigatti/streamlitTest): a three-tier bakery → hub → store
supply-chain simulator.

Modelling conventions:
* Inventory levels, demand and money amounts are `ℚ` (Python floats are
  real-valued here; no float rounding is modelled).
* Randomness is injected: the ambient generator `np.random.normal(μ, σ)`
  is replaced by `μ + σ * z` where `z : ℚ` is a caller-supplied
  standardized draw.  Each day supplies four independent draws (one for
  demand, one for each of the three lead-time sampling points), mirroring
  the four `np.random.normal` call sites reachable per loop iteration.
* `np.round` rounds half to even (banker's rounding); `roundHalfEven`
  below reproduces it exactly.  `int(...)` on the already-integral result
  is the identity and is not modelled separately.
-/

namespace BakerySim

/-- Horizon: `n_periods = 365` (line 9 of app.py). -/
def n_periods : ℕ := 365

/-- Mean of the daily store demand: `store_demand_mean = 100` (line 16). -/
def store_demand_mean : ℚ := 100

/-- Standard deviation of the daily store demand:
`store_demand_std = store_demand_mean * 0.2` (line 17). -/
def store_demand_std : ℚ := store_demand_mean * 0.2

/-- Round half to even on rationals, the rounding used by `np.round`. -/
def roundHalfEven (q : ℚ) : ℤ :=
  let f := q - ⌊q⌋
  if f < 1/2 then ⌊q⌋
  else if 1/2 < f then ⌊q⌋ + 1
  else if ⌊q⌋ % 2 = 0 then ⌊q⌋ else ⌊q⌋ + 1

/-- Lead-time sampling (line 51 of app.py):
`leadtime_variation = lambda base: max(1, int(np.round(np.random.normal(base, base * lead_var))))`.
The normal draw `np.random.normal(base, base * lead_var)` is modelled as
`base + base * lead_var * z` with `z` the injected standardized draw. -/
def leadtime_variation (lead_var : ℚ) (base : ℤ) (z : ℚ) : ℤ :=
  max 1 (roundHalfEven ((base : ℚ) + (base : ℚ) * lead_var * z))

/-- The slider-supplied parameters of one simulation run (app.py lines
23–36 and the `simulate_inventory_cost` arguments, line 39). -/
structure Params where
  store_days : ℕ
  hub_days : ℕ
  lt_store : ℤ
  lt_hub : ℤ
  lt_bakery : ℤ
  lead_var : ℚ
  h_store : ℚ
  h_hub : ℚ
  h_bakery : ℚ
deriving DecidableEq

/-- The four standardized normal draws one loop iteration can consume:
the demand draw (line 54) and the three lead-time draws (lines 66, 73, 79). -/
structure DayDraws where
  demand_z : ℚ
  store_z : ℚ
  hub_z : ℚ
  bakery_z : ℚ
deriving DecidableEq

/-- The mutable state of `simulate_inventory_cost` (lines 40–50):
three inventory levels, the metric accumulators and the three traces. -/
structure SimState where
  store_inventory : ℚ
  hub_inventory : ℚ
  bakery_inventory : ℚ
  total_demand : ℚ
  fulfilled_demand : ℚ
  stockout_days : ℕ
  store_inv : List ℚ
  hub_inv : List ℚ
  bakery_inv : List ℚ
deriving DecidableEq

/-- Initial state (lines 40–50): all inventories and accumulators zero,
empty traces. -/
def initState : SimState := ⟨0, 0, 0, 0, 0, 0, [], [], []⟩

/-- The day's demand (line 54): `max(0, np.random.normal(mean, std))`,
with the normal sample modelled as `mean + std * z`. -/
def demandOn (z : ℚ) : ℚ :=
  max 0 (store_demand_mean + store_demand_std * z)

/-- Demand fulfillment at the store (lines 55–63): accumulate demand,
fulfill `min(store_inventory, demand)`, count a stockout day when
`store_inventory < demand` before decrementing, then decrement. -/
def fulfillStep (demand : ℚ) (s : SimState) : SimState :=
  { s with
    total_demand := s.total_demand + demand
    fulfilled_demand := s.fulfilled_demand + min s.store_inventory demand
    stockout_days :=
      if s.store_inventory < demand then s.stockout_days + 1 else s.stockout_days
    store_inventory := s.store_inventory - min s.store_inventory demand }

/-- Store order quantity (line 67): `qty = store_demand_mean * store_lead`
with `store_lead = leadtime_variation(lt_store)` (line 66). -/
def storeQty (p : Params) (z : ℚ) : ℚ :=
  store_demand_mean * ((leadtime_variation p.lead_var p.lt_store z : ℤ) : ℚ)

/-- Hub order quantity (line 74): `qty = store_demand_mean * hub_lead`
with `hub_lead = leadtime_variation(lt_hub)` (line 73). -/
def hubQty (p : Params) (z : ℚ) : ℚ :=
  store_demand_mean * ((leadtime_variation p.lead_var p.lt_hub z : ℤ) : ℚ)

/-- Bakery production quantity (line 80):
`store_demand_mean * bakery_lead` with
`bakery_lead = leadtime_variation(lt_bakery)` (line 79). -/
def bakeryQty (p : Params) (z : ℚ) : ℚ :=
  store_demand_mean * ((leadtime_variation p.lead_var p.lt_bakery z : ℤ) : ℚ)

/-- Store replenishment from the hub (lines 65–70): on eligible days
order `storeQty`; transfer only when the hub can cover the whole order,
otherwise drop it. -/
def storeReplenish (p : Params) (day : ℕ) (z : ℚ) (s : SimState) : SimState :=
  if day % p.store_days = 0 then
    if s.hub_inventory ≥ storeQty p z then
      { s with
        store_inventory := s.store_inventory + storeQty p z
        hub_inventory := s.hub_inventory - storeQty p z }
    else s
  else s

/-- Hub replenishment from the bakery (lines 72–76): on eligible days
move `hubQty` from bakery to hub unconditionally. -/
def hubReplenish (p : Params) (day : ℕ) (z : ℚ) (s : SimState) : SimState :=
  if day % p.hub_days = 0 then
    { s with
      bakery_inventory := s.bakery_inventory - hubQty p z
      hub_inventory := s.hub_inventory + hubQty p z }
  else s

/-- Bakery production (lines 78–80): on eligible days add `bakeryQty` to
the bakery unconditionally. -/
def bakeryProduce (p : Params) (day : ℕ) (z : ℚ) (s : SimState) : SimState :=
  if day % p.hub_days = 0 then
    { s with
      bakery_inventory := s.bakery_inventory + bakeryQty p z }
  else s

/-- Trace recording (lines 82–84): append `max(0, level)` for each tier;
the state fields themselves are left untouched. -/
def recordTrace (s : SimState) : SimState :=
  { s with
    store_inv := s.store_inv ++ [max 0 s.store_inventory]
    hub_inv := s.hub_inv ++ [max 0 s.hub_inventory]
    bakery_inv := s.bakery_inv ++ [max 0 s.bakery_inventory] }

/-- One iteration of the daily loop (lines 53–84), in source order:
demand fulfillment, store replenishment, hub replenishment, bakery
production, trace recording. -/
def dayStep (p : Params) (draws : ℕ → DayDraws) (s : SimState) (day : ℕ) : SimState :=
  recordTrace
    (bakeryProduce p day (draws day).bakery_z
      (hubReplenish p day (draws day).hub_z
        (storeReplenish p day (draws day).store_z
          (fulfillStep (demandOn (draws day).demand_z) s))))

/-- The state after simulating the first `n` days. -/
def simulateN (p : Params) (draws : ℕ → DayDraws) (n : ℕ) : SimState :=
  (List.range n).foldl (dayStep p draws) initState

/-- The final state of `simulate_inventory_cost` (lines 39–84): the full
365-day run. -/
def simulate_inventory_cost (p : Params) (draws : ℕ → DayDraws) : SimState :=
  simulateN p draws n_periods

/-- Arithmetic mean of a trace, `np.mean` (lines 86–88). -/
def listMean (l : List ℚ) : ℚ := l.sum / l.length

/-- Fill rate returned by the engine (line 90):
`service_level = fulfilled_demand / total_demand`, with no guard on a
zero denominator. -/
def service_level (p : Params) (draws : ℕ → DayDraws) : ℚ :=
  (simulate_inventory_cost p draws).fulfilled_demand /
    (simulate_inventory_cost p draws).total_demand

/-- Stockout risk returned by the engine (line 91):
`stockout_risk = stockout_days / n_periods`. -/
def stockout_risk (p : Params) (draws : ℕ → DayDraws) : ℚ :=
  ((simulate_inventory_cost p draws).stockout_days : ℚ) / (n_periods : ℚ)

/-- The full return tuple of `simulate_inventory_cost` (line 93):
`(store_val, hub_val, bakery_val, service_level, stockout_risk, total_demand)`. -/
def simulationResults (p : Params) (draws : ℕ → DayDraws) :
    ℚ × ℚ × ℚ × ℚ × ℚ × ℚ :=
  let s := simulate_inventory_cost p draws
  (listMean s.store_inv * p.h_store,
   listMean s.hub_inv * p.h_hub,
   listMean s.bakery_inv * p.h_bakery,
   s.fulfilled_demand / s.total_demand,
   (s.stockout_days : ℚ) / (n_periods : ℚ),
   s.total_demand)

/-- Target fill rate for the optimal-setting search:
`target_fill = 0.95` (line 137). -/
def target_fill : ℚ := 0.95

/-- The record kept by the optimal-setting search (lines 146–150). -/
structure BestSetting where
  store_day : ℕ
  fill_rate : ℚ
deriving DecidableEq

/-- One iteration of the optimal-setting loop (lines 141–150): replace
the running best exactly when the new gap is strictly smaller than the
running minimum (`float('inf')` modelled as `none`). -/
def scanStep (levels : ℕ → ℚ) (acc : Option BestSetting × Option ℚ)
    (store_day : ℕ) : Option BestSetting × Option ℚ :=
  let gap := |levels store_day - target_fill|
  match acc.2 with
  | none => (some ⟨store_day, levels store_day⟩, some gap)
  | some m =>
    if gap < m then (some ⟨store_day, levels store_day⟩, some gap) else acc

/-- The candidate store replenishment intervals: `range(1, 8)` (line 141). -/
def scan_candidates : List ℕ := (List.range 7).map (· + 1)

/-- The optimal-setting search (lines 137–150): a linear scan over
intervals 1..7, starting from `best_setting = None`, `min_gap = inf`;
`levels` gives the fill rate observed for each candidate interval. -/
def best_setting (levels : ℕ → ℚ) : Option BestSetting × Option ℚ :=
  scan_candidates.foldl (scanStep levels) (none, none)

/-- The gap minimized by the optimal-setting search (line 143):
`gap = abs(level - target_fill)`. -/
def scanGap (levels : ℕ → ℚ) (d : ℕ) : ℚ := |levels d - target_fill|

/-- Invariant of the optimal-setting scan after processing the
candidates in `processed`: the accumulator holds the first candidate
achieving the minimal gap seen so far. -/
def ScanInv (levels : ℕ → ℚ) (processed : List ℕ)
    (acc : Option BestSetting × Option ℚ) : Prop :=
  (processed = [] → acc = (none, none)) ∧
  (processed ≠ [] → ∃ b : BestSetting,
    acc.1 = some b ∧
    acc.2 = some (scanGap levels b.store_day) ∧
    b.fill_rate = levels b.store_day ∧
    b.store_day ∈ processed ∧
    (∀ d ∈ processed, scanGap levels b.store_day ≤ scanGap levels d) ∧
    (∀ d ∈ processed, d < b.store_day → scanGap levels b.store_day < scanGap levels d))

/-- State invariant maintained by the daily loop: the store and hub
inventories stay non-negative, and the fulfilled demand stays between 0
and the total demand. -/
def StateInv (s : SimState) : Prop :=
  0 ≤ s.store_inventory ∧ 0 ≤ s.hub_inventory ∧
    0 ≤ s.fulfilled_demand ∧ s.fulfilled_demand ≤ s.total_demand

/-- Concrete parameter vector used for witnesses: store interval 1, hub
interval 2, lead-time bases 1/2/3, zero lead-time variability, default
holding costs. -/
def pW : Params := ⟨1, 2, 1, 2, 3, 0, 20, 18, 15⟩

/-- Draw sequence in which every standardized normal draw is 0 (every
normal sample equals its mean). -/
def zdraws : ℕ → DayDraws := fun _ => ⟨0, 0, 0, 0⟩

/-- A second, syntactically different description of the same draw
sequence as `zdraws`. -/
def zdrawsB : ℕ → DayDraws := fun _ =>
  { demand_z := 0, store_z := 0, hub_z := 0, bakery_z := 0 }

/-- Draw sequence whose demand draws are 10 standard deviations below
the mean: every day's clamped demand is 0. -/
def negDraws : ℕ → DayDraws := fun _ => ⟨-10, 0, 0, 0⟩

lemma roundHalfEven_intCast (b : ℤ) : roundHalfEven (b : ℚ) = b := by
  unfold roundHalfEven
  rw [Int.floor_intCast]
  norm_num

lemma one_le_leadtime_variation (v : ℚ) (b : ℤ) (z : ℚ) :
    1 ≤ leadtime_variation v b z :=
  le_max_left 1 _

lemma leadtime_variation_zero_var (b : ℤ) (z : ℚ) (hb : 1 ≤ b) :
    leadtime_variation 0 b z = b := by
  unfold leadtime_variation
  have h0 : (b : ℚ) + (b : ℚ) * 0 * z = (b : ℚ) := by ring
  rw [h0, roundHalfEven_intCast]
  exact max_eq_right hb

lemma leadtime_cast_nonneg (v : ℚ) (b : ℤ) (z : ℚ) :
    (0 : ℚ) ≤ ((leadtime_variation v b z : ℤ) : ℚ) := by
  exact_mod_cast le_trans zero_le_one (one_le_leadtime_variation v b z)

lemma storeQty_nonneg (p : Params) (z : ℚ) : 0 ≤ storeQty p z :=
  mul_nonneg (by norm_num [store_demand_mean]) (leadtime_cast_nonneg _ _ _)

lemma hubQty_nonneg (p : Params) (z : ℚ) : 0 ≤ hubQty p z :=
  mul_nonneg (by norm_num [store_demand_mean]) (leadtime_cast_nonneg _ _ _)

lemma bakeryQty_nonneg (p : Params) (z : ℚ) : 0 ≤ bakeryQty p z :=
  mul_nonneg (by norm_num [store_demand_mean]) (leadtime_cast_nonneg _ _ _)

lemma demandOn_nonneg (z : ℚ) : 0 ≤ demandOn z := le_max_left 0 _

lemma simulateN_zero (p : Params) (draws : ℕ → DayDraws) :
    simulateN p draws 0 = initState := rfl

lemma simulateN_succ (p : Params) (draws : ℕ → DayDraws) (n : ℕ) :
    simulateN p draws (n + 1) = dayStep p draws (simulateN p draws n) n := by
  unfold simulateN
  rw [List.range_succ, List.foldl_append]
  rfl

lemma dayStep_total_demand (p : Params) (draws : ℕ → DayDraws) (s : SimState) (day : ℕ) :
    (dayStep p draws s day).total_demand =
      s.total_demand + demandOn (draws day).demand_z := by
  unfold dayStep recordTrace bakeryProduce hubReplenish storeReplenish fulfillStep
  split_ifs <;> rfl

lemma dayStep_fulfilled_demand (p : Params) (draws : ℕ → DayDraws) (s : SimState) (day : ℕ) :
    (dayStep p draws s day).fulfilled_demand =
      s.fulfilled_demand + min s.store_inventory (demandOn (draws day).demand_z) := by
  unfold dayStep recordTrace bakeryProduce hubReplenish storeReplenish fulfillStep
  split_ifs <;> rfl

lemma dayStep_stockout_days (p : Params) (draws : ℕ → DayDraws) (s : SimState) (day : ℕ) :
    (dayStep p draws s day).stockout_days =
      (if s.store_inventory < demandOn (draws day).demand_z then s.stockout_days + 1
       else s.stockout_days) := by
  unfold dayStep recordTrace bakeryProduce hubReplenish storeReplenish fulfillStep
  split_ifs <;> rfl

lemma dayStep_store_inventory (p : Params) (draws : ℕ → DayDraws) (s : SimState) (day : ℕ) :
    (dayStep p draws s day).store_inventory =
      (storeReplenish p day (draws day).store_z
        (fulfillStep (demandOn (draws day).demand_z) s)).store_inventory := by
  unfold dayStep recordTrace bakeryProduce hubReplenish
  split_ifs <;> rfl

lemma dayStep_hub_inventory (p : Params) (draws : ℕ → DayDraws) (s : SimState) (day : ℕ) :
    (dayStep p draws s day).hub_inventory =
      (hubReplenish p day (draws day).hub_z
        (storeReplenish p day (draws day).store_z
          (fulfillStep (demandOn (draws day).demand_z) s))).hub_inventory := by
  unfold dayStep recordTrace bakeryProduce
  split_ifs <;> rfl

lemma dayStep_store_inv (p : Params) (draws : ℕ → DayDraws) (s : SimState) (day : ℕ) :
    (dayStep p draws s day).store_inv =
      s.store_inv ++ [max 0 (dayStep p draws s day).store_inventory] := by
  unfold dayStep recordTrace bakeryProduce hubReplenish storeReplenish fulfillStep
  split_ifs <;> rfl

lemma dayStep_hub_inv (p : Params) (draws : ℕ → DayDraws) (s : SimState) (day : ℕ) :
    (dayStep p draws s day).hub_inv =
      s.hub_inv ++ [max 0 (dayStep p draws s day).hub_inventory] := by
  unfold dayStep recordTrace bakeryProduce hubReplenish storeReplenish fulfillStep
  split_ifs <;> rfl

lemma dayStep_bakery_inv (p : Params) (draws : ℕ → DayDraws) (s : SimState) (day : ℕ) :
    (dayStep p draws s day).bakery_inv =
      s.bakery_inv ++ [max 0 (dayStep p draws s day).bakery_inventory] := by
  unfold dayStep recordTrace bakeryProduce hubReplenish storeReplenish fulfillStep
  split_ifs <;> rfl

lemma fulfillStep_store_nonneg (d : ℚ) (s : SimState) :
    0 ≤ (fulfillStep d s).store_inventory := by
  unfold fulfillStep
  exact sub_nonneg.mpr (min_le_left _ _)

lemma fulfillStep_hub_eq (d : ℚ) (s : SimState) :
    (fulfillStep d s).hub_inventory = s.hub_inventory := rfl

lemma storeReplenish_store_nonneg (p : Params) (day : ℕ) (z : ℚ) (s : SimState)
    (h : 0 ≤ s.store_inventory) :
    0 ≤ (storeReplenish p day z s).store_inventory := by
  unfold storeReplenish
  split_ifs with h1 h2
  · exact add_nonneg h (storeQty_nonneg p z)
  · exact h
  · exact h

lemma storeReplenish_hub_nonneg (p : Params) (day : ℕ) (z : ℚ) (s : SimState)
    (h : 0 ≤ s.hub_inventory) :
    0 ≤ (storeReplenish p day z s).hub_inventory := by
  unfold storeReplenish
  split_ifs with h1 h2
  · exact sub_nonneg.mpr h2
  · exact h
  · exact h

lemma hubReplenish_hub_nonneg (p : Params) (day : ℕ) (z : ℚ) (s : SimState)
    (h : 0 ≤ s.hub_inventory) :
    0 ≤ (hubReplenish p day z s).hub_inventory := by
  unfold hubReplenish
  split_ifs
  · exact add_nonneg h (hubQty_nonneg p z)
  · exact h

lemma dayStep_StateInv (p : Params) (draws : ℕ → DayDraws) (s : SimState) (day : ℕ)
    (h : StateInv s) : StateInv (dayStep p draws s day) := by
  obtain ⟨hs, hh, hf, hft⟩ := h
  refine ⟨?_, ?_, ?_, ?_⟩
  · rw [dayStep_store_inventory]
    exact storeReplenish_store_nonneg _ _ _ _ (fulfillStep_store_nonneg _ _)
  · rw [dayStep_hub_inventory]
    refine hubReplenish_hub_nonneg _ _ _ _ ?_
    refine storeReplenish_hub_nonneg _ _ _ _ ?_
    rw [fulfillStep_hub_eq]
    exact hh
  · rw [dayStep_fulfilled_demand]
    exact add_nonneg hf (le_min hs (demandOn_nonneg _))
  · rw [dayStep_fulfilled_demand, dayStep_total_demand]
    exact add_le_add hft (min_le_right _ _)

lemma simulateN_StateInv (p : Params) (draws : ℕ → DayDraws) (n : ℕ) :
    StateInv (simulateN p draws n) := by
  induction n with
  | zero => exact ⟨le_refl 0, le_refl 0, le_refl 0, le_refl 0⟩
  | succ n ih =>
    rw [simulateN_succ]
    exact dayStep_StateInv _ _ _ _ ih

lemma simulateN_total_succ (p : Params) (draws : ℕ → DayDraws) (n : ℕ) :
    (simulateN p draws (n + 1)).total_demand =
      (simulateN p draws n).total_demand + demandOn (draws n).demand_z := by
  rw [simulateN_succ, dayStep_total_demand]

lemma simulateN_total_nonneg (p : Params) (draws : ℕ → DayDraws) (n : ℕ) :
    0 ≤ (simulateN p draws n).total_demand :=
  le_trans (simulateN_StateInv p draws n).2.2.1 (simulateN_StateInv p draws n).2.2.2

lemma demand_le_total (p : Params) (draws : ℕ → DayDraws) (n d : ℕ) (hd : d < n) :
    demandOn (draws d).demand_z ≤ (simulateN p draws n).total_demand := by
  induction n with
  | zero => exact absurd hd (Nat.not_lt_zero d)
  | succ n ih =>
    rw [simulateN_total_succ]
    rcases Nat.lt_succ_iff_lt_or_eq.mp hd with h | h
    · exact le_trans (ih h) (le_add_of_nonneg_right (demandOn_nonneg _))
    · subst h
      exact le_add_of_nonneg_left (simulateN_total_nonneg p draws d)

lemma simulateN_total_eq_sum (p : Params) (draws : ℕ → DayDraws) (n : ℕ) :
    (simulateN p draws n).total_demand =
      ((List.range n).map (fun d => demandOn (draws d).demand_z)).sum := by
  induction n with
  | zero => rfl
  | succ n ih =>
    rw [simulateN_total_succ, ih, List.range_succ, List.map_append, List.sum_append]
    simp

lemma simulateN_stockout_le (p : Params) (draws : ℕ → DayDraws) (n : ℕ) :
    (simulateN p draws n).stockout_days ≤ n := by
  induction n with
  | zero => exact le_refl 0
  | succ n ih =>
    rw [simulateN_succ, dayStep_stockout_days]
    split_ifs <;> omega

lemma simulateN_stockout_zero (p : Params) (draws : ℕ → DayDraws) (n : ℕ)
    (h : (simulateN p draws n).stockout_days = 0) :
    ∀ d < n, ¬ ((simulateN p draws d).store_inventory < demandOn (draws d).demand_z) := by
  induction n with
  | zero => exact fun d hd => absurd hd (Nat.not_lt_zero d)
  | succ n ih =>
    rw [simulateN_succ, dayStep_stockout_days] at h
    intro d hd
    by_cases hc : (simulateN p draws n).store_inventory < demandOn (draws n).demand_z
    · rw [if_pos hc] at h
      exact absurd h (Nat.succ_ne_zero _)
    · rw [if_neg hc] at h
      rcases Nat.lt_succ_iff_lt_or_eq.mp hd with h' | h'
      · exact ih h d h'
      · subst h'
        exact hc

lemma simulateN_store_inv_nonneg (p : Params) (draws : ℕ → DayDraws) (n : ℕ) :
    ∀ x ∈ (simulateN p draws n).store_inv, 0 ≤ x := by
  induction n with
  | zero => exact fun x hx => absurd hx (List.not_mem_nil x)
  | succ n ih =>
    rw [simulateN_succ, dayStep_store_inv]
    intro x hx
    rcases List.mem_append.mp hx with h | h
    · exact ih x h
    · rw [List.mem_singleton.mp h]
      exact le_max_left 0 _

lemma simulateN_hub_inv_nonneg (p : Params) (draws : ℕ → DayDraws) (n : ℕ) :
    ∀ x ∈ (simulateN p draws n).hub_inv, 0 ≤ x := by
  induction n with
  | zero => exact fun x hx => absurd hx (List.not_mem_nil x)
  | succ n ih =>
    rw [simulateN_succ, dayStep_hub_inv]
    intro x hx
    rcases List.mem_append.mp hx with h | h
    · exact ih x h
    · rw [List.mem_singleton.mp h]
      exact le_max_left 0 _

lemma simulateN_bakery_inv_nonneg (p : Params) (draws : ℕ → DayDraws) (n : ℕ) :
    ∀ x ∈ (simulateN p draws n).bakery_inv, 0 ≤ x := by
  induction n with
  | zero => exact fun x hx => absurd hx (List.not_mem_nil x)
  | succ n ih =>
    rw [simulateN_succ, dayStep_bakery_inv]
    intro x hx
    rcases List.mem_append.mp hx with h | h
    · exact ih x h
    · rw [List.mem_singleton.mp h]
      exact le_max_left 0 _

lemma dayStep_congr (p : Params) (draws1 draws2 : ℕ → DayDraws) (s : SimState) (day : ℕ)
    (h : draws1 day = draws2 day) : dayStep p draws1 s day = dayStep p draws2 s day := by
  unfold dayStep
  rw [h]

lemma simulateN_congr (p : Params) (draws1 draws2 : ℕ → DayDraws) (n : ℕ)
    (h : ∀ d < n, draws1 d = draws2 d) :
    simulateN p draws1 n = simulateN p draws2 n := by
  induction n with
  | zero => rfl
  | succ n ih =>
    rw [simulateN_succ, simulateN_succ,
      ih (fun d hd => h d (Nat.lt_succ_of_lt hd)),
      dayStep_congr p draws1 draws2 _ n (h n (Nat.lt_succ_self n))]

lemma scanStep_preserves (levels : ℕ → ℚ) (processed : List ℕ)
    (acc : Option BestSetting × Option ℚ) (c : ℕ)
    (hinv : ScanInv levels processed acc) (hlt : ∀ d ∈ processed, d < c) :
    ScanInv levels (processed ++ [c]) (scanStep levels acc c) := by
  obtain ⟨hnil, hne⟩ := hinv
  obtain ⟨a1, a2⟩ := acc
  constructor
  · intro habs
    exact absurd habs (by simp)
  · intro _
    rcases eq_or_ne processed [] with hp | hp
    · subst hp
      have hacc := hnil rfl
      rw [Prod.mk.injEq] at hacc
      rw [hacc.1, hacc.2]
      refine ⟨⟨c, levels c⟩, ?_, ?_, rfl, ?_, ?_, ?_⟩
      · simp [scanStep]
      · simp [scanStep, scanGap]
      · simp
      · intro d hd
        have hdc : d = c := by simpa using hd
        subst hdc
        exact le_refl _
      · intro d hd hdc
        have hdc2 : d = c := by simpa using hd
        subst hdc2
        exact absurd hdc (lt_irrefl d)
    · obtain ⟨b, hb1, hb2, hbf, hbmem, hbmin, hbfirst⟩ := hne hp
      simp only at hb1 hb2
      subst hb1
      subst hb2
      by_cases hgap : scanGap levels c < scanGap levels b.store_day
      · have hgap' : |levels c - target_fill| < |levels b.store_day - target_fill| := hgap
        refine ⟨⟨c, levels c⟩, ?_, ?_, rfl, ?_, ?_, ?_⟩
        · simp [scanStep, scanGap, if_pos hgap']
        · simp [scanStep, scanGap, if_pos hgap']
        · simp
        · intro d hd
          rcases List.mem_append.mp hd with h | h
          · exact le_of_lt (lt_of_lt_of_le hgap (hbmin d h))
          · rw [List.mem_singleton.mp h]
        · intro d hd hdc
          rcases List.mem_append.mp hd with h | h
          · exact lt_of_lt_of_le hgap (hbmin d h)
          · rw [List.mem_singleton.mp h] at hdc
            exact absurd hdc (lt_irrefl c)
      · have hgap' : ¬ |levels c - target_fill| < |levels b.store_day - target_fill| := hgap
        refine ⟨b, ?_, ?_, hbf, ?_, ?_, ?_⟩
        · simp [scanStep, scanGap, if_neg hgap']
        · simp [scanStep, scanGap, if_neg hgap']
        · exact List.mem_append_left _ hbmem
        · intro d hd
          rcases List.mem_append.mp hd with h | h
          · exact hbmin d h
          · rw [List.mem_singleton.mp h]
            exact not_lt.mp hgap
        · intro d hd hdb
          rcases List.mem_append.mp hd with h | h
          · exact hbfirst d h hdb
          · rw [List.mem_singleton.mp h] at hdb
            exact absurd hdb (not_lt.mpr (le_of_lt (hlt b.store_day hbmem)))

lemma scan_foldl_inv (levels : ℕ → ℚ) (l : List ℕ) :
    ∀ (processed : List ℕ) (acc : Option BestSetting × Option ℚ),
      ScanInv levels processed acc →
      (∀ d ∈ processed, ∀ c ∈ l, d < c) →
      List.Pairwise (· < ·) l →
      ScanInv levels (processed ++ l) (l.foldl (scanStep levels) acc) := by
  induction l with
  | nil =>
    intro processed acc h _ _
    simpa using h
  | cons c l ih =>
    intro processed acc h hcross hpair
    have hpc := List.pairwise_cons.mp hpair
    have h1 : ScanInv levels (processed ++ [c]) (scanStep levels acc c) :=
      scanStep_preserves levels processed acc c h
        (fun d hd => hcross d hd c (List.mem_cons_self c l))
    have h2 := ih (processed ++ [c]) (scanStep levels acc c) h1 ?_ hpc.2
    · rw [List.append_assoc] at h2
      simpa using h2
    · intro d hd c' hc'
      rcases List.mem_append.mp hd with h' | h'
      · exact hcross d h' c' (List.mem_cons_of_mem c hc')
      · rw [List.mem_singleton.mp h']
        exact hpc.1 c' hc'

lemma best_setting_spec (levels : ℕ → ℚ) :
    ∃ b : BestSetting,
      (best_setting levels).1 = some b ∧
      (best_setting levels).2 = some (scanGap levels b.store_day) ∧
      b.fill_rate = levels b.store_day ∧
      b.store_day ∈ scan_candidates ∧
      (∀ d ∈ scan_candidates, scanGap levels b.store_day ≤ scanGap levels d) ∧
      (∀ d ∈ scan_candidates, d < b.store_day →
        scanGap levels b.store_day < scanGap levels d) := by
  have hinv0 : ScanInv levels [] (none, none) :=
    ⟨fun _ => rfl, fun h => absurd rfl h⟩
  have h := scan_foldl_inv levels scan_candidates [] (none, none) hinv0
    (fun d hd => absurd hd (List.not_mem_nil d)) (by decide)
  rw [List.nil_append] at h
  exact h.2 (by decide)

/-- Claim C1: store replenishment is all-or-nothing.  On a day with
`day % store_days == 0`, with order quantity `qty = store_demand_mean *
sampled lead time`, if the hub holds at least `qty` then exactly `qty`
moves from hub to store; if the hub holds less than `qty` the step
leaves the whole state unchanged, so the store never gains inventory
from a replenishment attempt against an insufficient hub. -/
theorem store_replenishment_all_or_nothing (p : Params) (day : ℕ) (z : ℚ) (s : SimState)
    (hday : day % p.store_days = 0) :
    (s.hub_inventory ≥ storeQty p z →
      storeReplenish p day z s =
        { s with
          store_inventory := s.store_inventory + storeQty p z
          hub_inventory := s.hub_inventory - storeQty p z }) ∧
    (s.hub_inventory < storeQty p z →
      storeReplenish p day z s = s) := by
  constructor
  · intro h
    unfold storeReplenish
    rw [if_pos hday, if_pos h]
  · intro h
    unfold storeReplenish
    rw [if_pos hday, if_neg (not_le.mpr h)]

/-- Witness for C1: with store interval 1 on day 0, a hub holding 1000
transfers the full order of 100, and the empty initial hub leaves the
state untouched. -/
theorem store_replenishment_all_or_nothing_witness :
    storeReplenish pW 0 0 { initState with hub_inventory := 1000 } =
      { initState with store_inventory := 100, hub_inventory := 900 } ∧
    storeReplenish pW 0 0 initState = initState := by
  have hq : storeQty pW 0 = 100 := by
    norm_num [storeQty, leadtime_variation, roundHalfEven, store_demand_mean, pW]
  constructor
  · have h := (store_replenishment_all_or_nothing pW 0 0
      { initState with hub_inventory := 1000 } (by norm_num [pW])).1
    have hmem : ({ initState with hub_inventory := 1000 } : SimState).hub_inventory = 1000 := rfl
    rw [h (by rw [hmem, hq]; norm_num)]
    rw [hq]
    norm_num [initState]
  · have h := (store_replenishment_all_or_nothing pW 0 0 initState (by norm_num [pW])).2
    have hmem : (initState.hub_inventory : ℚ) = 0 := rfl
    exact h (by rw [hmem, hq]; norm_num)

/-- Claim C2: on every simulated day, fulfillment adds `demand` to the
total demand and `min(store_inventory, demand)` to the fulfilled demand,
increments the stockout counter exactly when `store_inventory < demand`
holds strictly for the pre-decrement inventory, and the fulfillment step
then sets `store_inventory := store_inventory - fulfilled`. -/
theorem demand_fulfillment_accounting (p : Params) (draws : ℕ → DayDraws)
    (s : SimState) (day : ℕ) :
    (dayStep p draws s day).total_demand =
      s.total_demand + demandOn (draws day).demand_z ∧
    (dayStep p draws s day).fulfilled_demand =
      s.fulfilled_demand + min s.store_inventory (demandOn (draws day).demand_z) ∧
    (dayStep p draws s day).stockout_days =
      (if s.store_inventory < demandOn (draws day).demand_z then s.stockout_days + 1
       else s.stockout_days) ∧
    (fulfillStep (demandOn (draws day).demand_z) s).store_inventory =
      s.store_inventory - min s.store_inventory (demandOn (draws day).demand_z) :=
  ⟨dayStep_total_demand p draws s day, dayStep_fulfilled_demand p draws s day,
   dayStep_stockout_days p draws s day, rfl⟩

/-- Claim C3: on a day with `day % hub_days == 0` the hub replenishment
step subtracts `qty = store_demand_mean * sampled hub lead time` from the
bakery and adds the same `qty` to the hub unconditionally (no capacity
check), and bakery production runs under the same day-modulus condition,
adding `store_demand_mean * sampled bakery lead time` unconditionally;
on other days both steps leave the state unchanged. -/
theorem hub_replenishment_and_bakery_production (p : Params) (day : ℕ)
    (zh zb : ℚ) (s : SimState) :
    (day % p.hub_days = 0 →
      (hubReplenish p day zh s).bakery_inventory = s.bakery_inventory - hubQty p zh ∧
      (hubReplenish p day zh s).hub_inventory = s.hub_inventory + hubQty p zh ∧
      (bakeryProduce p day zb s).bakery_inventory = s.bakery_inventory + bakeryQty p zb) ∧
    (¬ day % p.hub_days = 0 →
      hubReplenish p day zh s = s ∧ bakeryProduce p day zb s = s) := by
  constructor
  · intro h
    unfold hubReplenish bakeryProduce
    simp [if_pos h]
  · intro h
    unfold hubReplenish bakeryProduce
    simp [if_neg h]

/-- Witness for C3: with hub interval 2, day 0 moves 200 out of the
bakery into the hub and produces 300 at the bakery, while day 1 leaves
the state unchanged. -/
theorem hub_replenishment_and_bakery_production_witness :
    (hubReplenish pW 0 0 initState).bakery_inventory = -200 ∧
    (hubReplenish pW 0 0 initState).hub_inventory = 200 ∧
    (bakeryProduce pW 0 0 initState).bakery_inventory = 300 ∧
    hubReplenish pW 1 0 initState = initState ∧
    bakeryProduce pW 1 0 initState = initState := by
  have hq : hubQty pW 0 = 200 := by
    norm_num [hubQty, leadtime_variation, roundHalfEven, store_demand_mean, pW]
  have hb : bakeryQty pW 0 = 300 := by
    norm_num [bakeryQty, leadtime_variation, roundHalfEven, store_demand_mean, pW]
  have h0 := (hub_replenishment_and_bakery_production pW 0 0 0 initState).1
    (by norm_num [pW])
  have h1 := (hub_replenishment_and_bakery_production pW 1 0 0 initState).2
    (by norm_num [pW])
  refine ⟨?_, ?_, ?_, h1.1, h1.2⟩
  · rw [h0.1, hq]
    norm_num [initState]
  · rw [h0.2.1, hq]
    norm_num [initState]
  · rw [h0.2.2, hb]
    norm_num [initState]

/-- Claim C4: the non-negativity floor is applied only at trace
recording.  Each day appends `max 0` of the current (unclamped) state
value of each tier to its trace, so every recorded trace entry is
non-negative, while the state fields themselves carry their possibly
negative values unchanged into the next day. -/
theorem trace_floor_only_at_recording (p : Params) (draws : ℕ → DayDraws)
    (s : SimState) (day n : ℕ) :
    ((dayStep p draws s day).store_inv =
      s.store_inv ++ [max 0 (dayStep p draws s day).store_inventory]) ∧
    ((dayStep p draws s day).hub_inv =
      s.hub_inv ++ [max 0 (dayStep p draws s day).hub_inventory]) ∧
    ((dayStep p draws s day).bakery_inv =
      s.bakery_inv ++ [max 0 (dayStep p draws s day).bakery_inventory]) ∧
    (∀ x ∈ (simulateN p draws n).store_inv, 0 ≤ x) ∧
    (∀ x ∈ (simulateN p draws n).hub_inv, 0 ≤ x) ∧
    (∀ x ∈ (simulateN p draws n).bakery_inv, 0 ≤ x) :=
  ⟨dayStep_store_inv p draws s day, dayStep_hub_inv p draws s day,
   dayStep_bakery_inv p draws s day, simulateN_store_inv_nonneg p draws n,
   simulateN_hub_inv_nonneg p draws n, simulateN_bakery_inv_nonneg p draws n⟩

/-- Witness for C4: after one simulated day with parameters `pW` and
all-zero draws the hub trace holds the entry 200, and the theorem
instance yields its non-negativity. -/
theorem trace_floor_only_at_recording_witness :
    (200 : ℚ) ∈ (simulateN pW zdraws 1).hub_inv ∧ (0 : ℚ) ≤ 200 := by
  have hmem : (200 : ℚ) ∈ (simulateN pW zdraws 1).hub_inv := by
    norm_num [simulateN, dayStep, recordTrace, bakeryProduce, hubReplenish,
      storeReplenish, fulfillStep, demandOn, initState, leadtime_variation,
      roundHalfEven, store_demand_mean, store_demand_std, storeQty, hubQty,
      bakeryQty, pW, zdraws, List.range_succ]
  exact ⟨hmem,
    (trace_floor_only_at_recording pW zdraws initState 0 1).2.2.2.2.1 200 hmem⟩

/-- Claim C5: a lead-time sample `max(1, round(Normal(base, base*var)))`
is always an integer at least 1, and with zero variability it equals the
base lead time exactly, for every base at least 1. -/
theorem leadtime_sampling_bounds (lead_var : ℚ) (base : ℤ) (z : ℚ) :
    1 ≤ leadtime_variation lead_var base z ∧
    (1 ≤ base → leadtime_variation 0 base z = base) :=
  ⟨one_le_leadtime_variation lead_var base z,
   fun hb => leadtime_variation_zero_var base z hb⟩

/-- Witness for C5: with variability 0.2, base 3 and draw 1 the sample
is at least 1, and with variability 0 the sample at base 5 equals 5 for
an arbitrary draw. -/
theorem leadtime_sampling_bounds_witness :
    1 ≤ leadtime_variation 0.2 3 1 ∧ ((1 : ℤ) ≤ 5 ∧ leadtime_variation 0 5 7 = 5) :=
  ⟨(leadtime_sampling_bounds 0.2 3 1).1,
   ⟨by norm_num, (leadtime_sampling_bounds 0 5 7).2 (by norm_num)⟩⟩

/-- Claim C6: whenever the total demand of a run is positive, the fill
rate lies in [0, 1]; the stockout risk always lies in [0, 1]; and a
stockout risk of 0 means that on no day the pre-fulfillment store
inventory was strictly below that day's demand. -/
theorem fill_rate_and_stockout_risk_bounds (p : Params) (draws : ℕ → DayDraws) :
    (0 < (simulate_inventory_cost p draws).total_demand →
      0 ≤ service_level p draws ∧ service_level p draws ≤ 1) ∧
    (0 ≤ stockout_risk p draws ∧ stockout_risk p draws ≤ 1) ∧
    (stockout_risk p draws = 0 →
      ∀ d < n_periods,
        ¬ ((simulateN p draws d).store_inventory < demandOn (draws d).demand_z)) := by
  have hInv : StateInv (simulate_inventory_cost p draws) :=
    simulateN_StateInv p draws n_periods
  refine ⟨?_, ⟨?_, ?_⟩, ?_⟩
  · intro hpos
    unfold service_level
    exact ⟨div_nonneg hInv.2.2.1 (le_of_lt hpos), (div_le_one hpos).mpr hInv.2.2.2⟩
  · unfold stockout_risk
    positivity
  · unfold stockout_risk
    rw [div_le_one (by norm_num [n_periods])]
    exact_mod_cast simulateN_stockout_le p draws n_periods
  · intro h0
    unfold stockout_risk at h0
    rw [div_eq_zero_iff] at h0
    have hk : ((simulate_inventory_cost p draws).stockout_days : ℚ) = 0 := by
      rcases h0 with h | h
      · exact h
      · exact absurd h (by norm_num [n_periods])
    have hk' : (simulate_inventory_cost p draws).stockout_days = 0 := by
      exact_mod_cast hk
    exact simulateN_stockout_zero p draws n_periods hk'

/-- Witness for C6: under all-zero draws the total demand of the run is
positive (each day contributes 100), so the fill-rate bounds apply. -/
theorem fill_rate_and_stockout_risk_bounds_witness :
    0 < (simulate_inventory_cost pW zdraws).total_demand ∧
    0 ≤ service_level pW zdraws ∧ service_level pW zdraws ≤ 1 := by
  have hd : demandOn (zdraws 0).demand_z = 100 := by
    norm_num [demandOn, zdraws, store_demand_mean, store_demand_std]
  have hpos : 0 < (simulate_inventory_cost pW zdraws).total_demand := by
    have hle := demand_le_total pW zdraws n_periods 0 (by norm_num [n_periods])
    rw [hd] at hle
    unfold simulate_inventory_cost
    linarith
  exact ⟨hpos, (fill_rate_and_stockout_risk_bounds pW zdraws).1 hpos⟩

/-- Claim C7: the engine is deterministic in its randomness source: two
runs with identical parameters whose injected draw sequences agree on
every simulated day produce identical final states (hence identical
traces) and identical returned metrics. -/
theorem determinism_under_fixed_randomness (p : Params)
    (draws1 draws2 : ℕ → DayDraws) (h : ∀ d < n_periods, draws1 d = draws2 d) :
    simulate_inventory_cost p draws1 = simulate_inventory_cost p draws2 ∧
    simulationResults p draws1 = simulationResults p draws2 := by
  have hs : simulate_inventory_cost p draws1 = simulate_inventory_cost p draws2 :=
    simulateN_congr p draws1 draws2 n_periods h
  refine ⟨hs, ?_⟩
  unfold simulationResults
  rw [hs]

/-- Witness for C7: the two syntactically different descriptions of the
all-zero draw sequence give identical runs. -/
theorem determinism_under_fixed_randomness_witness :
    simulate_inventory_cost pW zdraws = simulate_inventory_cost pW zdrawsB ∧
    simulationResults pW zdraws = simulationResults pW zdrawsB :=
  determinism_under_fixed_randomness pW zdraws zdrawsB (fun _ _ => rfl)

/-- Claim C8 (amended): the fill-rate division's denominator is exactly
the run's total demand, so a division by zero can arise only when the
total demand over the whole horizon is 0; every day's clamped demand is
non-negative, and if at least one day's clamped demand is positive the
total demand is positive; the code performs the division in every case,
with no guard on the zero denominator. -/
theorem total_demand_positive_of_positive_demand (p : Params) (draws : ℕ → DayDraws) :
    (∀ z, 0 ≤ demandOn z) ∧
    ((∃ d, d < n_periods ∧ 0 < demandOn (draws d).demand_z) →
      0 < (simulate_inventory_cost p draws).total_demand) ∧
    service_level p draws =
      (simulate_inventory_cost p draws).fulfilled_demand /
        (simulate_inventory_cost p draws).total_demand := by
  refine ⟨demandOn_nonneg, ?_, rfl⟩
  rintro ⟨d, hd, hpos⟩
  have hle := demand_le_total p draws n_periods d hd
  unfold simulate_inventory_cost
  linarith

/-- Witness for C8 (amended): under all-zero draws, day 0 has clamped
demand 100 > 0, so the run's total demand is positive. -/
theorem total_demand_positive_of_positive_demand_witness :
    0 < demandOn (zdraws 0).demand_z ∧
    0 < (simulate_inventory_cost pW zdraws).total_demand := by
  have hd : 0 < demandOn (zdraws 0).demand_z := by
    norm_num [demandOn, zdraws, store_demand_mean, store_demand_std]
  exact ⟨hd, (total_demand_positive_of_positive_demand pW zdraws).2.1
    ⟨0, by norm_num [n_periods], hd⟩⟩

/-- Counterexample for C8 as stated: a run whose demand draws are all 10
standard deviations below the mean reaches the end of the horizon with
total demand 0, and the engine still computes the unguarded division —
the returned fill rate is the junk value of division by zero (0 in this
rational model, NaN in the floating-point reference), not a guarded 1.0,
and no undefined flag exists in the return value. -/
theorem fill_rate_guard_counterexample :
    (simulate_inventory_cost pW negDraws).total_demand = 0 ∧
    service_level pW negDraws = 0 ∧
    ¬ service_level pW negDraws = 1 := by
  have hzero : (simulate_inventory_cost pW negDraws).total_demand = 0 := by
    unfold simulate_inventory_cost
    rw [simulateN_total_eq_sum]
    apply List.sum_eq_zero
    intro x hx
    rw [List.mem_map] at hx
    obtain ⟨d, _, hdx⟩ := hx
    rw [← hdx]
    norm_num [demandOn, negDraws, store_demand_mean, store_demand_std]
  have hsl : service_level pW negDraws = 0 := by
    unfold service_level
    rw [hzero, div_zero]
  refine ⟨hzero, hsl, ?_⟩
  rw [hsl]
  norm_num

/-- Claim C9: the 95%-fill-rate search is a linear scan over store
intervals 1..7 keeping the candidate with the smallest absolute gap to
0.95; on a tie it keeps the earliest-scanned interval, because the
comparison against the running minimum is strict. -/
theorem best_setting_linear_scan (levels : ℕ → ℚ) :
    ∃ b : BestSetting,
      (best_setting levels).1 = some b ∧
      b.fill_rate = levels b.store_day ∧
      b.store_day ∈ scan_candidates ∧
      (∀ d ∈ scan_candidates,
        |levels b.store_day - target_fill| ≤ |levels d - target_fill|) ∧
      (∀ d ∈ scan_candidates, d < b.store_day →
        |levels b.store_day - target_fill| < |levels d - target_fill|) := by
  obtain ⟨b, h1, _, h3, h4, h5, h6⟩ := best_setting_spec levels
  exact ⟨b, h1, h3, h4, h5, h6⟩

/-- Witness for C9: the scan instantiated at the fill-rate profile
`d ↦ d / 10`. -/
theorem best_setting_linear_scan_witness :
    ∃ b : BestSetting,
      (best_setting (fun d => (d : ℚ) / 10)).1 = some b ∧
      b.fill_rate = (fun d => (d : ℚ) / 10) b.store_day ∧
      b.store_day ∈ scan_candidates ∧
      (∀ d ∈ scan_candidates,
        |(b.store_day : ℚ) / 10 - target_fill| ≤ |(d : ℚ) / 10 - target_fill|) ∧
      (∀ d ∈ scan_candidates, d < b.store_day →
        |(b.store_day : ℚ) / 10 - target_fill| < |(d : ℚ) / 10 - target_fill|) :=
  best_setting_linear_scan (fun d => (d : ℚ) / 10)

/-- Claim C10: throughout every run the store and hub state inventories
(not just their recorded traces) stay non-negative after every day, and
of the three state variables only the bakery inventory can become
negative, witnessed by a run whose first hub order exceeds the bakery's
production. -/
theorem store_and_hub_state_stay_nonneg :
    (∀ (p : Params) (draws : ℕ → DayDraws) (n : ℕ),
      0 ≤ (simulateN p draws n).store_inventory ∧
      0 ≤ (simulateN p draws n).hub_inventory) ∧
    (∃ (p : Params) (draws : ℕ → DayDraws) (n : ℕ),
      (simulateN p draws n).bakery_inventory < 0) := by
  constructor
  · intro p draws n
    exact ⟨(simulateN_StateInv p draws n).1, (simulateN_StateInv p draws n).2.1⟩
  · refine ⟨⟨1, 1, 1, 7, 1, 0, 20, 18, 15⟩, zdraws, 1, ?_⟩
    norm_num [simulateN, dayStep, recordTrace, bakeryProduce, hubReplenish,
      storeReplenish, fulfillStep, demandOn, initState, leadtime_variation,
      roundHalfEven, store_demand_mean, store_demand_std, storeQty, hubQty,
      bakeryQty, zdraws, List.range_succ]

end BakerySim
